import Mathlib

/-!
Shallow embedding of the study-synchronisation core of the chessdriller
repository (`src/lib/lichessStudy.js`).

Modelling conventions:
  * Timestamps (`Date` values) are integers compared with the usual order.
  * Prisma tables are lists of records inside a `DB` structure.
  * The external collaborators (`fetchStudy`, `pgndbToMoves`, `guessColor`,
    `makePreviewFen`) are passed in as function arguments.
  * A Prisma `$transaction(queries)` is modelled by a `txOk : Bool` oracle:
    when it is `true` the whole query list is applied atomically, when it is
    `false` the call raises and no query of the batch is applied.
  * Fallible code returns `Except String`; a JavaScript `TypeError` caused by
    dereferencing the `null` result of `findUnique` is modelled by the
    distinguished error string `nullDereferenceError`.
-/

/-- Move record as produced by the external PGN parser `pgndbToMoves`
(`originPosition` = `fromFen`, `destPosition` = `toFen`). -/
structure ParsedMove where
  repForWhite : Bool
  fromFen : String
  toFen : String
  ownMove : Bool
deriving DecidableEq, Repr

/-- Type of the external parser `pgndbToMoves(pgn, repForWhite, onlyVariant)`. -/
abbrev PgnParser := String → Bool → Bool → List ParsedMove

/-- A row of the `Move` table.  The many-to-many ownership edges to studies
and to PGNs are stored as the id lists `studies` and `pgns`. -/
structure Move where
  userId : Nat
  repForWhite : Bool
  fromFen : String
  toFen : String
  ownMove : Bool
  deleted : Bool
  studies : List Nat
  pgns : List Nat
deriving DecidableEq, Repr

/-- A row of the `LichessStudy` table. -/
structure LichessStudy where
  id : Nat
  lichessId : String
  userId : Nat
  lastModifiedOnLichess : Int
  lastFetched : Int
  name : String
  pgn : String
  guessedColor : String
  previewFen : String
  included : Bool
  hidden : Bool
  removedOnLichess : Bool
  repForWhite : Bool
deriving DecidableEq, Repr

/-- A row of the `LichessStudyUpdate` table (the PendingUpdate of the spec);
`studyId` carries a unique constraint, so at most one row per study. -/
structure StudyUpdate where
  studyId : Nat
  fetched : Int
  lastModifiedOnLichess : Int
  numNewMoves : Nat
  numNewOwnMoves : Nat
  numRemovedMoves : Nat
  numRemovedOwnMoves : Nat
  pgn : String
deriving DecidableEq, Repr

/-- The part of the `User` table the core touches. -/
structure UserRow where
  id : Nat
  lastRepertoireUpdateCheck : Option Int
deriving DecidableEq, Repr

/-- The database state. -/
structure DB where
  studies : List LichessStudy
  updates : List StudyUpdate
  moves : List Move
  users : List UserRow
deriving DecidableEq, Repr

/-- Metadata entry returned by the external `fetchStudiesMetadata`. -/
structure RemoteStudy where
  id : String
  name : String
  updatedAt : Int
deriving DecidableEq, Repr

/-- Error produced when JavaScript dereferences the `null` returned by a
`findUnique` miss (e.g. `study.userId` with `study === null`). -/
def nullDereferenceError : String := "TypeError: Cannot read properties of null"

/-- Error produced by `findUniqueOrThrow` on a miss. -/
def findUniqueOrThrowError : String := "NotFoundError: No LichessStudy found"

/-- The mutations that the source pushes onto its `queries` arrays and runs
through `prisma.$transaction`. -/
inductive DbQuery where
  | clearRemovedOnLichess (id : Nat)
  | setName (id : Nat) (name : String)
  | setRemovedOnLichess (id : Nat)
  | deleteStudyRow (id : Nat)
  | upsertMove (user_id : Nat) (study_id : Nat) (m : ParsedMove)
  | setIncluded (id : Nat) (repForWhite : Bool)
  | softDeleteMove (user_id : Nat) (repForWhite : Bool) (fromFen : String) (toFen : String)
  | unincludeAndDisconnect (id : Nat)
deriving DecidableEq, Repr

/-- Update the study row with the given id (Prisma `LichessStudy.update`). -/
def updateStudyRow (db : DB) (id : Nat) (f : LichessStudy → LichessStudy) : DB :=
  { db with studies := db.studies.map (fun s => if s.id == id then f s else s) }

/-- Composite identity key test between a parsed move and a `Move` row, as in
the `userId_repForWhite_fromFen_toFen` unique-key lookup of the source. -/
def parsedKeyMatches (user_id : Nat) (m : ParsedMove) (mv : Move) : Bool :=
  mv.userId == user_id && mv.repForWhite == m.repForWhite
    && mv.fromFen == m.fromFen && mv.toFen == m.toFen

/-- Apply one query to the database (relational semantics of the Prisma calls
built by the source; `deleteStudyRow` cascades the relation rows). -/
def applyQuery (db : DB) : DbQuery → DB
  | .clearRemovedOnLichess id =>
      updateStudyRow db id (fun s => { s with removedOnLichess := false })
  | .setName id name =>
      updateStudyRow db id (fun s => { s with name := name })
  | .setRemovedOnLichess id =>
      updateStudyRow db id (fun s => { s with removedOnLichess := true })
  | .deleteStudyRow id =>
      { db with
        studies := db.studies.filter (fun s => s.id != id),
        updates := db.updates.filter (fun u => u.studyId != id),
        moves := db.moves.map (fun mv => { mv with studies := mv.studies.filter (fun t => t != id) }) }
  | .upsertMove uid sid m =>
      if db.moves.any (fun mv => parsedKeyMatches uid m mv) then
        { db with moves := db.moves.map (fun mv =>
            if parsedKeyMatches uid m mv then
              { mv with studies := mv.studies.insert sid, deleted := false }
            else mv) }
      else
        { db with moves := db.moves ++
            [{ userId := uid, repForWhite := m.repForWhite, fromFen := m.fromFen,
               toFen := m.toFen, ownMove := m.ownMove, deleted := false,
               studies := [sid], pgns := [] }] }
  | .setIncluded id rfw =>
      updateStudyRow db id (fun s => { s with included := true, repForWhite := rfw })
  | .softDeleteMove uid rfw ff tf =>
      { db with moves := db.moves.map (fun mv =>
          if mv.userId == uid && mv.repForWhite == rfw && mv.fromFen == ff && mv.toFen == tf
          then { mv with deleted := true } else mv) }
  | .unincludeAndDisconnect id =>
      let db1 := updateStudyRow db id (fun s => { s with included := false })
      { db1 with moves := db1.moves.map (fun mv =>
          { mv with studies := mv.studies.filter (fun t => t != id) }) }

/-- Apply a whole query list (a successful `prisma.$transaction(queries)`). -/
def applyQueries (db : DB) (qs : List DbQuery) : DB :=
  qs.foldl applyQuery db

/-- Pending updates stored for a given study. -/
def updatesFor (db : DB) (sid : Nat) : List StudyUpdate :=
  db.updates.filter (fun u => u.studyId == sid)

/-- Moves currently attached to a study (the `moves` relation of a study row). -/
def studyGraphMoves (db : DB) (sid : Nat) : List Move :=
  db.moves.filter (fun mv => mv.studies.contains sid)

/-- Projection of a study's graph moves to the fields selected for diffing in
`fetchStudyUpdate` (`repForWhite`, `ownMove`, `fromFen`, `toFen`). -/
def studyMovesForDiff (db : DB) (sid : Nat) : List ParsedMove :=
  (studyGraphMoves db sid).map (fun mv =>
    { repForWhite := mv.repForWhite, fromFen := mv.fromFen, toFen := mv.toFen,
      ownMove := mv.ownMove })

/-- Identity-key equality used by the move diff (user fixed, `ownMove` is an
attribute, not part of the key). -/
def sameMoveIdentity (a b : ParsedMove) : Bool :=
  a.repForWhite == b.repForWhite && a.fromFen == b.fromFen && a.toFen == b.toFen

/-- Modelled from the spec: `compareMovesLists` is defined in
`src/lib/movesUtil.js`, which is not among the provided sources.  Following
the spec: given an existing and a newly parsed move list, produce
`(new_moves, removed_moves)` where membership is decided by the composite
identity key, not by position or count. -/
def compareMovesLists (existing updated : List ParsedMove) :
    List ParsedMove × List ParsedMove :=
  ( updated.filter (fun u => ! existing.any (fun e => sameMoveIdentity e u)),
    existing.filter (fun e => ! updated.any (fun u => sameMoveIdentity u e)) )

/-- Insert-or-replace a pending update keyed by `studyId`
(`prisma.LichessStudyUpdate.upsert`). -/
def upsertStudyUpdate (updates : List StudyUpdate) (u : StudyUpdate) : List StudyUpdate :=
  if updates.any (fun v => v.studyId == u.studyId) then
    updates.map (fun v => if v.studyId == u.studyId then u else v)
  else
    updates ++ [u]

/-- Counts returned by `fetchStudyUpdate`. -/
structure UpdateStats where
  numNewMoves : Nat
  numNewOwnMoves : Nat
  numRemovedMoves : Nat
  numRemovedOwnMoves : Nat
deriving DecidableEq, Repr

/-- Translation of `fetchStudyUpdate(user_id, study_id, prisma, ...)`:
fetch the latest remote version of an included study, diff it against the
study's current graph moves and upsert the single pending update.
`fetch` returns `(pgn, lastModified)` for a lichess id; `now` is the wall
clock used for the `fetched` field.  The source reads `study.onlyVariant`,
a field absent from its `select`, hence `undefined` (falsy): the parser is
called with `false` for `onlyVariant`. -/
def fetchStudyUpdate (user_id study_id : Nat) (db : DB)
    (fetch : String → String × Int) (parse : PgnParser) (now : Int) :
    Except String (DB × UpdateStats) :=
  match db.studies.find? (fun s => s.id == study_id) with
  | none => .error nullDereferenceError
  | some study =>
    if study.userId ≠ user_id then
      .error "Study does not belong to this user (are you logged in?)"
    else if ! study.included then
      .error "Only studies that are part of your repertoire can be updated with fetchStudyUpdate, use updateUnincludedStudy."
    else
      let pgn := (fetch study.lichessId).1
      let lastModified := (fetch study.lichessId).2
      let updated_moves := parse pgn study.repForWhite false
      let diff := compareMovesLists (studyMovesForDiff db study_id) updated_moves
      let stats : UpdateStats :=
        { numNewMoves := diff.1.length,
          numNewOwnMoves := (diff.1.filter (fun m => m.ownMove)).length,
          numRemovedMoves := diff.2.length,
          numRemovedOwnMoves := (diff.2.filter (fun m => m.ownMove)).length }
      let upd : StudyUpdate :=
        { studyId := study.id, fetched := now, lastModifiedOnLichess := lastModified,
          numNewMoves := stats.numNewMoves, numNewOwnMoves := stats.numNewOwnMoves,
          numRemovedMoves := stats.numRemovedMoves,
          numRemovedOwnMoves := stats.numRemovedOwnMoves, pgn := pgn }
      .ok ({ db with updates := upsertStudyUpdate db.updates upd }, stats)

/-- Translation of `updateUnincludedStudy`: overwrite content and timestamps
of an unincluded (possibly hidden) study directly. -/
def updateUnincludedStudy (user_id study_id : Nat) (db : DB)
    (fetch : String → String × Int) (now : Int) : Except String DB :=
  match db.studies.find? (fun s => s.id == study_id) with
  | none => .error nullDereferenceError
  | some study =>
    if study.userId ≠ user_id then
      .error "Study does not belong to this user (are you logged in?)"
    else if study.included then
      .error "Studies that are part of your repertoire cannot be updated with updateUnincludedStudy, use fetchStudyUpdate."
    else
      let pgn := (fetch study.lichessId).1
      let lastModified := (fetch study.lichessId).2
      .ok (updateStudyRow db study.id (fun s =>
        { s with lastModifiedOnLichess := lastModified, lastFetched := now, pgn := pgn }))

/-- Translation of `includeStudy(study_id, prisma, user_id, repForWhite,
onlyVariant)`.  Note that the source unconditionally overwrites the
`onlyVariant` parameter with `true` before parsing. -/
def includeStudy (study_id : Nat) (db : DB) (user_id : Nat) (repForWhite : Bool)
    (parse : PgnParser) (txOk : Bool) (onlyVariant : Bool) : Except String DB :=
  match db.studies.find? (fun s => s.id == study_id) with
  | none => .error findUniqueOrThrowError
  | some study =>
    if study.userId ≠ user_id then
      .error "Adding Lichess study failed: user ID does not match"
    else if study.hidden then
      .error "Adding Lichess study failed: cannot import hidden study, unhide it first"
    else if study.included then
      .error "Adding Lichess study failed: study is already included"
    else
      let onlyVariant := true
      let moves := parse study.pgn repForWhite onlyVariant
      let queries := moves.map (fun m => DbQuery.upsertMove user_id study_id m)
        ++ [DbQuery.setIncluded study_id repForWhite]
      if txOk then .ok (applyQueries db queries)
      else .error "Exception inserting moves into database"

/-- Modelled from the spec: `orphanMoveSoftDeletionsQueries` is defined in
`src/lib/movesUtil.js`, which is not among the provided sources.  Following
the spec (Orphan Detector): from the moves attached to the study being
detached, select exactly those whose owning-collection set (PGNs plus
studies), after removing this study, is empty. -/
def orphanMoves (sid : Nat) (moves : List Move) : List Move :=
  moves.filter (fun mv => mv.pgns.isEmpty && (mv.studies.filter (fun t => t != sid)).isEmpty)

/-- One soft-delete query per orphan move. -/
def softDeleteQueries (moves : List Move) : List DbQuery :=
  moves.map (fun mv => DbQuery.softDeleteMove mv.userId mv.repForWhite mv.fromFen mv.toFen)

/-- Translation of `unincludeStudy(study_id, user_id, prisma)`. -/
def unincludeStudy (study_id user_id : Nat) (db : DB) (txOk : Bool) :
    Except String (DB × Nat) :=
  match db.studies.find? (fun s => s.id == study_id) with
  | none => .error ("Study #" ++ toString study_id ++ " not found")
  | some study =>
    if study.userId ≠ user_id then
      .error "Study does not belong to this account (are you logged in?)"
    else
      let queries := softDeleteQueries (orphanMoves study_id (studyGraphMoves db study_id))
      let num_deleted_moves := queries.length
      let queries := queries ++ [DbQuery.unincludeAndDisconnect study_id]
      if txOk then .ok (applyQueries db queries, num_deleted_moves)
      else .error "transaction failed"

/-- Code predicate `has_newer_version_on_lichess` of `fetchAllStudyChanges`
(line 87 of the source): the study content may have changed on the remote. -/
def has_newer_version_on_lichess (lastFetched lm : Int) : Bool :=
  decide (lastFetched < lm)

/-- Code predicate `has_current_update_fetched` of `fetchAllStudyChanges`
(line 88 of the source): `existing_study.updates.length &&
existing_study.updates[0].fetched >= lichess_last_modified`.  Note that it
compares the pending update's fetch timestamp, not its remote-modification
timestamp. -/
def has_current_update_fetched (updates : List StudyUpdate) (lm : Int) : Bool :=
  match updates with
  | [] => false
  | u :: _ => decide (u.fetched ≥ lm)

/-- The content-change detection condition of `fetchAllStudyChanges`
(line 89 of the source). -/
def changeDetected (s : LichessStudy) (updates : List StudyUpdate) (lm : Int) : Bool :=
  has_newer_version_on_lichess s.lastFetched lm && ! has_current_update_fetched updates lm

/-- Refinement-comparison definition following the words of the spec and of
claim C1: a content change is detected when the local `lastFetched` is older
than the remote `lastModified` and no PendingUpdate exists whose
`lastModifiedOnRemote` is at least the remote `lastModified`. -/
def specClaimChangeDetected (s : LichessStudy) (updates : List StudyUpdate) (lm : Int) : Bool :=
  decide (s.lastFetched < lm) && ! updates.any (fun u => decide (u.lastModifiedOnLichess ≥ lm))

/-- Snapshot of one local study as read by the initial `findMany` of
`fetchAllStudyChanges` (the row together with its pending updates). -/
structure StudySnapshot where
  row : LichessStudy
  updates : List StudyUpdate
deriving DecidableEq, Repr

/-- All snapshots of a user's studies (`existing_studies` in the source). -/
def snapshotsFor (db : DB) (user_id : Nat) : List StudySnapshot :=
  (db.studies.filter (fun s => s.userId == user_id)).map
    (fun s => { row := s, updates := updatesFor db s.id })

/-- Queries pushed when the snapshot is flagged `removedOnLichess` although
the remote still reports it (restore bookkeeping, lines 70-75). -/
def restoreQueries (s : LichessStudy) : List DbQuery :=
  if s.removedOnLichess then [DbQuery.clearRemovedOnLichess s.id] else []

/-- Queries pushed when the remote name differs (lines 77-83). -/
def renameQueries (s : LichessStudy) (ls : RemoteStudy) : List DbQuery :=
  if s.name ≠ ls.name then [DbQuery.setName s.id ls.name] else []

/-- Contribution of one study to `num_renamed_studies`. -/
def renameCount (s : LichessStudy) (ls : RemoteStudy) : Nat :=
  if s.name ≠ ls.name then 1 else 0

/-- Result of processing one remote study that is already present locally. -/
structure ExistingStepResult where
  db : DB
  queries : List DbQuery
  num_renamed_studies : Nat
  num_updates_fetched : Nat
deriving DecidableEq, Repr

/-- The existing-study branch of the first loop of `fetchAllStudyChanges`
(lines 66-102): push restore/rename queries, and on a detected content
change either stage a pending update (included study) or apply it directly
(unincluded, not hidden), or do nothing (hidden). -/
def processExistingStudy (user_id : Nat) (db : DB) (snap : StudySnapshot)
    (ls : RemoteStudy) (fetch : String → String × Int) (parse : PgnParser)
    (now : Int) : Except String ExistingStepResult :=
  let s := snap.row
  let queries := restoreQueries s ++ renameQueries s ls
  let renamed := renameCount s ls
  if changeDetected s snap.updates ls.updatedAt then
    if s.included then
      match fetchStudyUpdate user_id s.id db fetch parse now with
      | .error e => .error e
      | .ok (db2, _) => .ok ⟨db2, queries, renamed, 1⟩
    else if ! s.hidden then
      match updateUnincludedStudy user_id s.id db fetch now with
      | .error e => .error e
      | .ok db2 => .ok ⟨db2, queries, renamed, 1⟩
    else
      .ok ⟨db, queries, renamed, 0⟩
  else
    .ok ⟨db, queries, renamed, 0⟩

/-- Next autoincrement id for a created study row. -/
def nextIdOf (db : DB) : Nat :=
  db.studies.foldl (fun a s => max a s.id) 0 + 1

/-- Row inserted for a study that is new on the remote (lines 51-64).  The
source's `create` does not set `lastFetched` or `repForWhite`; the storage
schema (not among the sources) supplies their defaults, modelled here as the
pass timestamp and `false`. -/
def newStudyRow (user_id : Nat) (db : DB) (ls : RemoteStudy)
    (fetch : String → String × Int) (guessColor makePreviewFen : String → String)
    (now : Int) : LichessStudy :=
  let pgn := (fetch ls.id).1
  { id := nextIdOf db, lichessId := ls.id, userId := user_id,
    lastModifiedOnLichess := ls.updatedAt, lastFetched := now, name := ls.name,
    pgn := pgn, guessedColor := guessColor pgn, previewFen := makePreviewFen pgn,
    included := false, hidden := false, removedOnLichess := false,
    repForWhite := false }

/-- Accumulator of the first loop of `fetchAllStudyChanges`. -/
structure LoopAcc where
  db : DB
  queries : List DbQuery
  num_new_studies : Nat
  num_updates_fetched : Nat
  num_renamed_studies : Nat
deriving DecidableEq, Repr

/-- First loop of `fetchAllStudyChanges` (lines 50-103): walk the remote
metadata, insert new studies immediately and process existing ones. -/
def syncRemoteStudies (user_id : Nat) (snaps : List StudySnapshot)
    (fetch : String → String × Int) (parse : PgnParser)
    (guessColor makePreviewFen : String → String) (now : Int) :
    LoopAcc → List RemoteStudy → Except String LoopAcc
  | acc, [] => .ok acc
  | acc, ls :: rest =>
    match snaps.find? (fun sn => sn.row.lichessId == ls.id) with
    | none =>
        let row := newStudyRow user_id acc.db ls fetch guessColor makePreviewFen now
        let acc1 : LoopAcc :=
          { acc with db := { acc.db with studies := acc.db.studies ++ [row] },
                     num_new_studies := acc.num_new_studies + 1 }
        syncRemoteStudies user_id snaps fetch parse guessColor makePreviewFen now acc1 rest
    | some snap =>
        match processExistingStudy user_id acc.db snap ls fetch parse now with
        | .error e => .error e
        | .ok r =>
            let acc1 : LoopAcc :=
              { db := r.db, queries := acc.queries ++ r.queries,
                num_new_studies := acc.num_new_studies,
                num_updates_fetched := acc.num_updates_fetched + r.num_updates_fetched,
                num_renamed_studies := acc.num_renamed_studies + r.num_renamed_studies }
            syncRemoteStudies user_id snaps fetch parse guessColor makePreviewFen now acc1 rest

/-- Second loop of `fetchAllStudyChanges` (lines 106-126), contribution of
one local study that is absent from the remote set. -/
def processRemovedStudy (s : LichessStudy) : List DbQuery × Nat :=
  if s.included then
    if ! s.removedOnLichess then ([DbQuery.setRemovedOnLichess s.id], 1) else ([], 0)
  else
    ([DbQuery.deleteStudyRow s.id], 1)

/-- Second loop of `fetchAllStudyChanges`: fold `processRemovedStudy` over
the snapshots that are no longer reported by the remote. -/
def removalPass (snaps : List StudySnapshot) (remote_ids : List String) :
    List DbQuery × Nat :=
  snaps.foldl
    (fun acc sn =>
      if remote_ids.contains sn.row.lichessId then acc
      else
        let r := processRemovedStudy sn.row
        (acc.1 ++ r.1, acc.2 + r.2))
    ([], 0)

/-- Record the per-user last-checked timestamp (`prisma.User.update`,
lines 138-141). -/
def setLastCheck (db : DB) (user_id : Nat) (now : Int) : DB :=
  { db with users := db.users.map (fun u =>
      if u.id == user_id then { u with lastRepertoireUpdateCheck := some now } else u) }

/-- Counts returned by `fetchAllStudyChanges`. -/
structure SyncCounts where
  num_new_studies : Nat
  num_updates_fetched : Nat
  num_renamed_studies : Nat
  num_removed_studies : Nat
deriving DecidableEq, Repr

/-- Translation of `fetchAllStudyChanges(user_id, prisma, ...)`: snapshot the
local studies, walk the remote metadata (per-document fetches committed
individually), collect the structural queries, run them as one transaction
and finally record the user's last-checked timestamp. -/
def fetchAllStudyChanges (user_id : Nat) (db : DB)
    (lichess_studies : List RemoteStudy) (fetch : String → String × Int)
    (parse : PgnParser) (guessColor makePreviewFen : String → String)
    (now : Int) (txOk : Bool) : Except String (DB × SyncCounts) :=
  let snaps := snapshotsFor db user_id
  match syncRemoteStudies user_id snaps fetch parse guessColor makePreviewFen now
      { db := db, queries := [], num_new_studies := 0, num_updates_fetched := 0,
        num_renamed_studies := 0 } lichess_studies with
  | .error e => .error e
  | .ok acc =>
    let removal := removalPass snaps (lichess_studies.map (fun ls => ls.id))
    let queries := acc.queries ++ removal.1
    if txOk then
      let db1 := applyQueries acc.db queries
      if db1.users.any (fun u => u.id == user_id) then
        .ok (setLastCheck db1 user_id now,
          { num_new_studies := acc.num_new_studies,
            num_updates_fetched := acc.num_updates_fetched,
            num_renamed_studies := acc.num_renamed_studies,
            num_removed_studies := removal.2 })
      else .error "User update failed: record not found"
    else .error "Exception renaming study: transaction failed"

/-- Translation of `deleteStudy(user_id, study_id, prisma)`: uninclude first
when included (its own transaction), then hard-delete the row in a second,
separate step. -/
def deleteStudy (user_id study_id : Nat) (db : DB) (txOk : Bool) : Except String DB :=
  match db.studies.find? (fun s => s.id == study_id) with
  | none => .error nullDereferenceError
  | some study =>
    if study.userId ≠ user_id then
      .error "Study does not belong to this user (are you logged in?)"
    else if study.included then
      match unincludeStudy study_id user_id db txOk with
      | .error e => .error e
      | .ok (db1, _) => .ok (applyQuery db1 (DbQuery.deleteStudyRow study_id))
    else
      .ok (applyQuery db (DbQuery.deleteStudyRow study_id))

/-- Key comparison between two `Move` rows, oriented like the predicate used
by `applyQuery` for a soft-delete query built from the row `o`. -/
def moveKeyEqB (o mv : Move) : Bool :=
  mv.userId == o.userId && mv.repForWhite == o.repForWhite
    && mv.fromFen == o.fromFen && mv.toFen == o.toFen

/-- Effect of the soft-delete queries of a list of orphan rows on one move. -/
def softDeleteView (orphans : List Move) (mv : Move) : Move :=
  if orphans.any (fun o => moveKeyEqB o mv) then { mv with deleted := true } else mv

/-- Combined effect of `unincludeStudy`'s transaction on one move row:
soft-delete if it key-matches an orphan, then sever the edge to the study. -/
def unincView (sid : Nat) (orphans : List Move) (mv : Move) : Move :=
  let m1 := softDeleteView orphans mv
  { m1 with studies := m1.studies.filter (fun t => t != sid) }

/-- Spec invariant on the move graph: a move that still has at least one
owning collection is not soft-deleted. -/
@[reducible] def movesInvariant (mvs : List Move) : Prop :=
  ∀ mv ∈ mvs, (mv.studies ≠ [] ∨ mv.pgns ≠ []) → mv.deleted = false

/-- Database well-formedness backing the `userId_repForWhite_fromFen_toFen`
unique constraint: equal composite keys imply equal rows. -/
@[reducible] def movesKeyInjective (mvs : List Move) : Prop :=
  ∀ a ∈ mvs, ∀ b ∈ mvs, moveKeyEqB a b = true → a = b

/-- Whether a query is a soft-delete instruction. -/
def DbQuery.isSoftDelete : DbQuery → Bool
  | .softDeleteMove _ _ _ _ => true
  | _ => false

/-- The pending-update record that `fetchStudyUpdate` writes for study `s`
when the remote returns `fetch s.lichessId`. -/
def pendingUpdateRecord (s : LichessStudy) (db : DB) (fetch : String → String × Int)
    (parse : PgnParser) (now : Int) : StudyUpdate :=
  let pgn := (fetch s.lichessId).1
  let diff := compareMovesLists (studyMovesForDiff db s.id) (parse pgn s.repForWhite false)
  { studyId := s.id, fetched := now, lastModifiedOnLichess := (fetch s.lichessId).2,
    numNewMoves := diff.1.length,
    numNewOwnMoves := (diff.1.filter (fun m => m.ownMove)).length,
    numRemovedMoves := diff.2.length,
    numRemovedOwnMoves := (diff.2.filter (fun m => m.ownMove)).length,
    pgn := pgn }

/-- The stats carried by a pending-update record. -/
def updateStatsOf (u : StudyUpdate) : UpdateStats :=
  { numNewMoves := u.numNewMoves, numNewOwnMoves := u.numNewOwnMoves,
    numRemovedMoves := u.numRemovedMoves, numRemovedOwnMoves := u.numRemovedOwnMoves }

/-! ### Concrete fixtures used for counterexamples and witnesses -/

/-- A remote-content oracle returning a fixed document. -/
def exFetch : String → String × Int := fun _ => ("newpgn", 5)

/-- A parser returning one fixed move. -/
def exParse : PgnParser := fun _ _ _ =>
  [{ repForWhite := true, fromFen := "a", toFen := "b", ownMove := true }]

/-- A parser returning no moves. -/
def exParseNil : PgnParser := fun _ _ _ => []

/-- A color-guessing stub. -/
def exGuess : String → String := fun _ => "white"

/-- A preview-position stub. -/
def exPrev : String → String := fun _ => "fen"

/-- An included study fixture. -/
def exStudyIncluded : LichessStudy :=
  { id := 1, lichessId := "abc", userId := 7, lastModifiedOnLichess := 3, lastFetched := 0,
    name := "S", pgn := "p", guessedColor := "w", previewFen := "f",
    included := true, hidden := false, removedOnLichess := false, repForWhite := true }

/-- An unincluded study fixture. -/
def exStudyUnincluded : LichessStudy :=
  { exStudyIncluded with id := 2, lichessId := "def", included := false }

/-- A pending update fetched at time 10 for content last modified at time 3. -/
def exUpdateStale : StudyUpdate :=
  { studyId := 1, fetched := 10, lastModifiedOnLichess := 3, numNewMoves := 0,
    numNewOwnMoves := 0, numRemovedMoves := 0, numRemovedOwnMoves := 0, pgn := "p" }

/-- Remote metadata reporting modification time 5 for the included study. -/
def exRemote : RemoteStudy := { id := "abc", name := "S", updatedAt := 5 }

/-- A move owned only by study 1. -/
def exMoveOwn1 : Move :=
  { userId := 7, repForWhite := true, fromFen := "a", toFen := "b", ownMove := true,
    deleted := false, studies := [1], pgns := [] }

/-- A move owned by studies 1 and 2. -/
def exMoveShared : Move :=
  { userId := 7, repForWhite := true, fromFen := "b", toFen := "c", ownMove := false,
    deleted := false, studies := [1, 2], pgns := [] }

/-- A user row fixture. -/
def exUser : UserRow := { id := 7, lastRepertoireUpdateCheck := none }

/-- Database with the included study and its stale pending update. -/
def exDb : DB :=
  { studies := [exStudyIncluded], updates := [exUpdateStale], moves := [], users := [exUser] }

/-- Database with an unincluded study, ready to be included. -/
def exDbInclude : DB :=
  { studies := [exStudyUnincluded], updates := [], moves := [], users := [exUser] }

/-- Database with the included study owning two graph moves. -/
def exDbGraph : DB :=
  { studies := [exStudyIncluded], updates := [], moves := [exMoveOwn1, exMoveShared],
    users := [exUser] }

/-! ### Basic laws of query application -/

lemma applyQueries_nil (db : DB) : applyQueries db [] = db := rfl

lemma applyQueries_cons (db : DB) (q : DbQuery) (qs : List DbQuery) :
    applyQueries db (q :: qs) = applyQueries (applyQuery db q) qs := rfl

lemma applyQueries_append (db : DB) (qs rs : List DbQuery) :
    applyQueries db (qs ++ rs) = applyQueries (applyQueries db qs) rs := by
  simp [applyQueries, List.foldl_append]

lemma applyQuery_users (db : DB) (q : DbQuery) : (applyQuery db q).users = db.users := by
  cases q <;> try rfl
  case upsertMove uid sid m =>
    simp only [applyQuery]
    split <;> rfl

lemma applyQueries_users (db : DB) (qs : List DbQuery) :
    (applyQueries db qs).users = db.users := by
  induction qs generalizing db with
  | nil => rfl
  | cons q qs ih => rw [applyQueries_cons, ih, applyQuery_users]

lemma applyQuery_upsert_studies (db : DB) (uid sid : Nat) (m : ParsedMove) :
    (applyQuery db (DbQuery.upsertMove uid sid m)).studies = db.studies := by
  simp only [applyQuery]
  split <;> rfl

lemma applyQuery_upsert_updates (db : DB) (uid sid : Nat) (m : ParsedMove) :
    (applyQuery db (DbQuery.upsertMove uid sid m)).updates = db.updates := by
  simp only [applyQuery]
  split <;> rfl

lemma applyQueries_upserts_studies (db : DB) (uid sid : Nat) (ms : List ParsedMove) :
    (applyQueries db (ms.map (fun m => DbQuery.upsertMove uid sid m))).studies
      = db.studies := by
  induction ms generalizing db with
  | nil => rfl
  | cons m ms ih =>
    rw [List.map_cons, applyQueries_cons, ih, applyQuery_upsert_studies]

/-! ### Lemmas extracting the shape of successful operations -/

lemma fetchStudyUpdate_ok_parts (uid sid : Nat) (db : DB)
    (fetch : String → String × Int) (parse : PgnParser) (now : Int)
    (db2 : DB) (st : UpdateStats)
    (h : fetchStudyUpdate uid sid db fetch parse now = .ok (db2, st)) :
    db2.moves = db.moves ∧ db2.studies = db.studies ∧ db2.users = db.users := by
  unfold fetchStudyUpdate at h
  split at h
  · exact absurd h (by simp)
  · split at h
    · exact absurd h (by simp)
    · split at h
      · exact absurd h (by simp)
      · simp only [Except.ok.injEq, Prod.mk.injEq] at h
        obtain ⟨hdb, -⟩ := h
        subst hdb
        exact ⟨rfl, rfl, rfl⟩

lemma updateUnincludedStudy_ok_parts (uid sid : Nat) (db : DB)
    (fetch : String → String × Int) (now : Int) (db2 : DB)
    (h : updateUnincludedStudy uid sid db fetch now = .ok db2) :
    db2.moves = db.moves ∧ db2.updates = db.updates ∧ db2.users = db.users := by
  unfold updateUnincludedStudy at h
  split at h
  · exact absurd h (by simp)
  · split at h
    · exact absurd h (by simp)
    · split at h
      · exact absurd h (by simp)
      · simp only [Except.ok.injEq] at h
        subst h
        exact ⟨rfl, rfl, rfl⟩

lemma find?_map_update (l : List LichessStudy) (sid : Nat)
    (f : LichessStudy → LichessStudy) (hf : ∀ s, (f s).id = s.id) (s : LichessStudy)
    (h : l.find? (fun t => t.id == sid) = some s) :
    (l.map (fun t => if t.id == sid then f t else t)).find? (fun t => t.id == sid)
      = some (f s) := by
  induction l with
  | nil => simp at h
  | cons a l ih =>
    by_cases hp : (a.id == sid) = true
    · rw [@List.find?_cons_of_pos _ (fun t => t.id == sid) a l hp] at h
      injection h with h
      subst h
      simp only [List.map_cons, if_pos hp]
      exact @List.find?_cons_of_pos LichessStudy (fun t => t.id == sid) _ _
        (by show ((f a).id == sid) = true; rw [hf a]; exact hp)
    · rw [@List.find?_cons_of_neg _ (fun t => t.id == sid) a l (by simpa using hp)] at h
      simp only [List.map_cons, if_neg hp]
      rw [@List.find?_cons_of_neg _ (fun t => t.id == sid) a _ (by simpa using hp)]
      exact ih h

/-! ### Soft-delete transaction shape -/

lemma moveKeyEqB_set_deleted (o mv : Move) (d : Bool) :
    moveKeyEqB o { mv with deleted := d } = moveKeyEqB o mv := rfl

lemma softDeleteView_studies (L : List Move) (mv : Move) :
    (softDeleteView L mv).studies = mv.studies := by
  unfold softDeleteView
  split <;> rfl

lemma softDeleteView_pgns (L : List Move) (mv : Move) :
    (softDeleteView L mv).pgns = mv.pgns := by
  unfold softDeleteView
  split <;> rfl

lemma softDelete_step (db : DB) (o : Move) :
    applyQuery db (DbQuery.softDeleteMove o.userId o.repForWhite o.fromFen o.toFen)
      = { db with moves := db.moves.map (softDeleteView [o]) } := by
  simp only [applyQuery]
  congr 1
  apply List.map_congr_left
  intro mv _
  simp [softDeleteView, moveKeyEqB]

lemma softDeleteView_comp (o : Move) (L : List Move) (mv : Move) :
    softDeleteView L (softDeleteView [o] mv) = softDeleteView (o :: L) mv := by
  by_cases h : moveKeyEqB o mv = true
  · have h1 : softDeleteView [o] mv = { mv with deleted := true } := by
      simp [softDeleteView, h]
    rw [h1]
    by_cases h2 : L.any (fun o2 => moveKeyEqB o2 mv) = true
    · simp [softDeleteView, moveKeyEqB_set_deleted, h2, h, List.any_cons]
    · simp [softDeleteView, moveKeyEqB_set_deleted, h2, h, List.any_cons]
  · have h1 : softDeleteView [o] mv = mv := by simp [softDeleteView, h]
    rw [h1]
    simp [softDeleteView, List.any_cons, h]

lemma applyQueries_softDelete (L : List Move) (db : DB) :
    applyQueries db (softDeleteQueries L)
      = { db with moves := db.moves.map (softDeleteView L) } := by
  induction L generalizing db with
  | nil =>
    have hfun : softDeleteView ([] : List Move) = fun mv => mv :=
      funext (fun mv => by simp [softDeleteView])
    rw [hfun]
    show db = _
    simp
  | cons o L ih =>
    rw [show softDeleteQueries (o :: L)
          = DbQuery.softDeleteMove o.userId o.repForWhite o.fromFen o.toFen
              :: softDeleteQueries L from rfl,
        applyQueries_cons, softDelete_step, ih]
    simp only [List.map_map]
    congr 1
    exact congrFun
      (congrArg List.map (funext fun mv => softDeleteView_comp o L mv)) db.moves

lemma applyQueries_uninc (db : DB) (sid : Nat) :
    applyQueries db
        (softDeleteQueries (orphanMoves sid (studyGraphMoves db sid))
          ++ [DbQuery.unincludeAndDisconnect sid])
      = { db with
          studies := db.studies.map (fun t =>
            if t.id == sid then { t with included := false } else t),
          moves := db.moves.map
            (unincView sid (orphanMoves sid (studyGraphMoves db sid))) } := by
  rw [applyQueries_append, applyQueries_softDelete]
  show applyQuery _ (DbQuery.unincludeAndDisconnect sid) = _
  simp only [applyQuery, updateStudyRow, List.map_map]
  congr 1

lemma unincludeStudy_ok_eq (study_id user_id : Nat) (db : DB) (s : LichessStudy)
    (hfind : db.studies.find? (fun t => t.id == study_id) = some s)
    (huser : s.userId = user_id) :
    unincludeStudy study_id user_id db true
      = .ok ({ db with
          studies := db.studies.map (fun t =>
            if t.id == study_id then { t with included := false } else t),
          moves := db.moves.map
            (unincView study_id (orphanMoves study_id (studyGraphMoves db study_id))) },
        (orphanMoves study_id (studyGraphMoves db study_id)).length) := by
  unfold unincludeStudy
  rw [hfind]
  dsimp only
  rw [if_neg (not_not_intro huser), if_pos rfl, applyQueries_uninc]
  simp [softDeleteQueries]

lemma unincludeStudy_ok_inv (study_id user_id : Nat) (db : DB) (txOk : Bool)
    (db1 : DB) (n : Nat)
    (h : unincludeStudy study_id user_id db txOk = .ok (db1, n)) :
    txOk = true
    ∧ db1 = { db with
        studies := db.studies.map (fun t =>
          if t.id == study_id then { t with included := false } else t),
        moves := db.moves.map
          (unincView study_id (orphanMoves study_id (studyGraphMoves db study_id))) }
    ∧ n = (orphanMoves study_id (studyGraphMoves db study_id)).length := by
  unfold unincludeStudy at h
  split at h
  · exact absurd h (by simp)
  case h_2 s heq =>
    split at h
    · exact absurd h (by simp)
    · split at h
      · simp only [Except.ok.injEq, Prod.mk.injEq] at h
        obtain ⟨hdb, hn⟩ := h
        refine ⟨by assumption, ?_, ?_⟩
        · rw [← hdb, applyQueries_uninc]
        · rw [← hn]; simp [softDeleteQueries]
      · exact absurd h (by simp)

lemma fetchStudyUpdate_ok_eq (user_id study_id : Nat) (db : DB) (s : LichessStudy)
    (fetch : String → String × Int) (parse : PgnParser) (now : Int)
    (hfind : db.studies.find? (fun t => t.id == study_id) = some s)
    (huser : s.userId = user_id) (hincl : s.included = true) :
    fetchStudyUpdate user_id study_id db fetch parse now
      = .ok
          ({ db with updates := upsertStudyUpdate db.updates (pendingUpdateRecord s db fetch parse now) },
           updateStatsOf (pendingUpdateRecord s db fetch parse now)) := by
  have hsid : s.id = study_id := by
    have := List.find?_some hfind
    simpa using this
  unfold fetchStudyUpdate
  rw [hfind]
  dsimp only
  rw [if_neg (not_not_intro huser), if_neg (by rw [hincl]; simp)]
  unfold pendingUpdateRecord updateStatsOf
  rw [hsid]

lemma updateUnincludedStudy_ok_eq (user_id study_id : Nat) (db : DB) (s : LichessStudy)
    (fetch : String → String × Int) (now : Int)
    (hfind : db.studies.find? (fun t => t.id == study_id) = some s)
    (huser : s.userId = user_id) (hincl : s.included = false) :
    updateUnincludedStudy user_id study_id db fetch now
      = .ok (updateStudyRow db s.id (fun t =>
          { t with lastModifiedOnLichess := (fetch s.lichessId).2,
                   lastFetched := now, pgn := (fetch s.lichessId).1 })) := by
  unfold updateUnincludedStudy
  rw [hfind]
  dsimp only
  rw [if_neg (not_not_intro huser), if_neg (by rw [hincl]; simp)]

lemma updatesFor_upsert (updates : List StudyUpdate) (u : StudyUpdate)
    (hone : (updates.filter (fun v => v.studyId == u.studyId)).length ≤ 1) :
    (upsertStudyUpdate updates u).filter (fun v => v.studyId == u.studyId) = [u] := by
  unfold upsertStudyUpdate
  induction updates with
  | nil => simp
  | cons v vs ih =>
    by_cases hv : (v.studyId == u.studyId) = true
    · have hany : (v :: vs).any (fun w => w.studyId == u.studyId) = true := by
        simp [List.any_cons, hv]
      rw [if_pos hany]
      have hvs : vs.filter (fun w => w.studyId == u.studyId) = [] := by
        rw [List.filter_cons, if_pos hv] at hone
        have hlen : (vs.filter (fun w => w.studyId == u.studyId)).length = 0 := by
          simp only [List.length_cons] at hone
          omega
        exact List.length_eq_zero.1 hlen
      have hall := List.filter_eq_nil_iff.1 hvs
      simp only [List.map_cons, if_pos hv, List.filter_cons]
      rw [if_pos (by simp)]
      have : (vs.map (fun w => if (w.studyId == u.studyId) = true then u else w)).filter
          (fun w => w.studyId == u.studyId) = [] := by
        apply List.filter_eq_nil_iff.2
        intro w hw
        rw [List.mem_map] at hw
        obtain ⟨w0, hw0, rfl⟩ := hw
        rw [if_neg (hall w0 hw0)]
        exact hall w0 hw0
      rw [this]
    · rw [List.filter_cons, if_neg hv] at hone
      cases hany : vs.any (fun w => w.studyId == u.studyId) with
      | true =>
        rw [if_pos (by simp [List.any_cons, hany])]
        simp only [List.map_cons, if_neg hv, List.filter_cons]
        have := ih hone
        rw [if_pos hany] at this
        exact this
      | false =>
        rw [if_neg (by simp [List.any_cons, hv, hany])]
        have hnil : vs.filter (fun w => w.studyId == u.studyId) = [] :=
          List.filter_eq_nil_iff.2 (List.any_eq_false.1 hany)
        simp [List.filter_cons, List.filter_append, hv, hnil]

/-! ### Invariant preservation -/

lemma movesInvariant_filter_studies (mvs : List Move) (p : Nat → Bool)
    (h : movesInvariant mvs) :
    movesInvariant (mvs.map (fun mv => { mv with studies := mv.studies.filter p })) := by
  intro mv2 hmem hcond
  rw [List.mem_map] at hmem
  obtain ⟨mv, hmv, rfl⟩ := hmem
  apply h mv hmv
  rcases hcond with h1 | h2
  · left
    intro hnil
    rw [hnil] at h1
    exact h1 rfl
  · right
    exact h2

lemma movesInvariant_applyQuery (db : DB) (q : DbQuery)
    (h : movesInvariant db.moves) (hq : q.isSoftDelete = false) :
    movesInvariant (applyQuery db q).moves := by
  cases q with
  | clearRemovedOnLichess id => exact h
  | setName id name => exact h
  | setRemovedOnLichess id => exact h
  | setIncluded id rfw => exact h
  | deleteStudyRow id => exact movesInvariant_filter_studies _ _ h
  | unincludeAndDisconnect id => exact movesInvariant_filter_studies _ _ h
  | softDeleteMove uid rfw ff tf => simp [DbQuery.isSoftDelete] at hq
  | upsertMove uid sid m =>
    simp only [applyQuery]
    split
    · intro mv2 hmem hcond
      rw [List.mem_map] at hmem
      obtain ⟨mv, hmv, rfl⟩ := hmem
      by_cases hk : parsedKeyMatches uid m mv = true
      · simp only [if_pos hk]
      · simp only [if_neg hk]
        simp only [if_neg hk] at hcond
        exact h mv hmv hcond
    · intro mv2 hmem hcond
      rcases List.mem_append.1 hmem with hm | hm
      · exact h mv2 hm hcond
      · rw [List.mem_singleton] at hm
        subst hm
        rfl

lemma movesInvariant_applyQueries (qs : List DbQuery) :
    ∀ (db : DB), movesInvariant db.moves → (∀ q ∈ qs, q.isSoftDelete = false) →
      movesInvariant (applyQueries db qs).moves := by
  induction qs with
  | nil =>
    intro db h _
    exact h
  | cons q qs ih =>
    intro db h hq
    rw [applyQueries_cons]
    exact ih _ (movesInvariant_applyQuery db q h (hq q (by simp)))
      (fun r hr => hq r (by simp [hr]))

lemma movesInvariant_unincView (db : DB) (sid : Nat)
    (hinj : movesKeyInjective db.moves) (h : movesInvariant db.moves) :
    movesInvariant
      (db.moves.map (unincView sid (orphanMoves sid (studyGraphMoves db sid)))) := by
  intro mv2 hmem hcond
  rw [List.mem_map] at hmem
  obtain ⟨mv, hmv, rfl⟩ := hmem
  by_cases hany :
      (orphanMoves sid (studyGraphMoves db sid)).any (fun o => moveKeyEqB o mv) = true
  · obtain ⟨o, ho, hkey⟩ := List.any_eq_true.1 hany
    have ho_db : o ∈ db.moves := by
      have h1 := (List.mem_filter.1 ho).1
      exact (List.mem_filter.1 h1).1
    have hoeq : o = mv := hinj o ho_db mv hmv hkey
    subst hoeq
    have hpred := (List.mem_filter.1 ho).2
    simp only [Bool.and_eq_true, List.isEmpty_iff] at hpred
    obtain ⟨hpg, hst⟩ := hpred
    rcases hcond with h1 | h2
    · apply absurd _ h1
      show ((softDeleteView (orphanMoves sid (studyGraphMoves db sid)) o).studies.filter
        (fun t => t != sid)) = []
      rw [softDeleteView_studies]
      exact hst
    · apply absurd _ h2
      show (softDeleteView (orphanMoves sid (studyGraphMoves db sid)) o).pgns = []
      rw [softDeleteView_pgns]
      exact hpg
  · have hdel :
        (unincView sid (orphanMoves sid (studyGraphMoves db sid)) mv).deleted
          = mv.deleted := by
      show (softDeleteView (orphanMoves sid (studyGraphMoves db sid)) mv).deleted
        = mv.deleted
      unfold softDeleteView
      rw [if_neg hany]
    rw [hdel]
    apply h mv hmv
    rcases hcond with h1 | h2
    · left
      intro hnil
      apply h1
      show ((softDeleteView (orphanMoves sid (studyGraphMoves db sid)) mv).studies.filter
        (fun t => t != sid)) = []
      rw [softDeleteView_studies, hnil]
      rfl
    · right
      intro hnil
      apply h2
      show (softDeleteView (orphanMoves sid (studyGraphMoves db sid)) mv).pgns = []
      rw [softDeleteView_pgns]
      exact hnil

/-! ### Shape of the reconciliation loop -/

lemma processExistingStudy_ok_parts (user_id : Nat) (db : DB) (snap : StudySnapshot)
    (ls : RemoteStudy) (fetch : String → String × Int) (parse : PgnParser) (now : Int)
    (r : ExistingStepResult)
    (h : processExistingStudy user_id db snap ls fetch parse now = .ok r) :
    r.queries = restoreQueries snap.row ++ renameQueries snap.row ls
    ∧ r.db.moves = db.moves ∧ r.db.users = db.users := by
  unfold processExistingStudy at h
  dsimp only at h
  split at h
  · split at h
    · split at h
      · exact absurd h (by simp)
      · rename_i db2 st heq
        simp only [Except.ok.injEq] at h
        subst h
        obtain ⟨hm, -, hu⟩ := fetchStudyUpdate_ok_parts _ _ _ _ _ _ _ _ heq
        exact ⟨rfl, hm, hu⟩
    · split at h
      · split at h
        · exact absurd h (by simp)
        · rename_i db2 heq
          simp only [Except.ok.injEq] at h
          subst h
          obtain ⟨hm, -, hu⟩ := updateUnincludedStudy_ok_parts _ _ _ _ _ _ heq
          exact ⟨rfl, hm, hu⟩
      · simp only [Except.ok.injEq] at h
        subst h
        exact ⟨rfl, rfl, rfl⟩
  · simp only [Except.ok.injEq] at h
    subst h
    exact ⟨rfl, rfl, rfl⟩

lemma syncRemoteStudies_ok_parts (user_id : Nat) (snaps : List StudySnapshot)
    (fetch : String → String × Int) (parse : PgnParser)
    (gc mp : String → String) (now : Int) (l : List RemoteStudy) :
    ∀ (acc acc2 : LoopAcc),
      syncRemoteStudies user_id snaps fetch parse gc mp now acc l = .ok acc2 →
      acc2.db.moves = acc.db.moves ∧ acc2.db.users = acc.db.users
      ∧ (∀ q ∈ acc2.queries, q ∈ acc.queries ∨ q.isSoftDelete = false) := by
  induction l with
  | nil =>
    intro acc acc2 h
    simp only [syncRemoteStudies, Except.ok.injEq] at h
    subst h
    exact ⟨rfl, rfl, fun q hq => Or.inl hq⟩
  | cons ls rest ih =>
    intro acc acc2 h
    unfold syncRemoteStudies at h
    split at h
    · obtain ⟨hm, hu, hq⟩ := ih _ _ h
      exact ⟨hm, hu, fun q hq2 => hq q hq2⟩
    · split at h
      · exact absurd h (by simp)
      · rename_i r heq
        obtain ⟨hm, hu, hq⟩ := ih _ _ h
        obtain ⟨hrq, hrm, hru⟩ := processExistingStudy_ok_parts _ _ _ _ _ _ _ _ heq
        refine ⟨by rw [hm]; exact hrm, by rw [hu]; exact hru, fun q hq2 => ?_⟩
        rcases hq q hq2 with hin | hns
        · rcases List.mem_append.1 hin with h1 | h2
          · exact Or.inl h1
          · right
            rw [hrq] at h2
            rcases List.mem_append.1 h2 with h3 | h4
            · unfold restoreQueries at h3
              split at h3
              · rw [List.mem_singleton] at h3
                subst h3
                rfl
              · simp at h3
            · unfold renameQueries at h4
              split at h4
              · rw [List.mem_singleton] at h4
                subst h4
                rfl
              · simp at h4
        · exact Or.inr hns

lemma processRemovedStudy_queries (s : LichessStudy) :
    ∀ q ∈ (processRemovedStudy s).1, q.isSoftDelete = false := by
  intro q hq
  unfold processRemovedStudy at hq
  split at hq
  · split at hq
    · rw [List.mem_singleton] at hq
      subst hq
      rfl
    · simp at hq
  · rw [List.mem_singleton] at hq
    subst hq
    rfl

lemma removalPass_aux (ids : List String) (snaps : List StudySnapshot) :
    ∀ (init : List DbQuery × Nat), (∀ q ∈ init.1, q.isSoftDelete = false) →
      ∀ q ∈ (List.foldl (fun acc sn =>
          if ids.contains sn.row.lichessId then acc
          else
            let r := processRemovedStudy sn.row
            (acc.1 ++ r.1, acc.2 + r.2)) init snaps).1,
        q.isSoftDelete = false := by
  induction snaps with
  | nil =>
    intro init hinit q hq
    exact hinit q hq
  | cons sn rest ih =>
    intro init hinit q hq
    rw [List.foldl_cons] at hq
    refine ih _ ?_ q hq
    by_cases hc : ids.contains sn.row.lichessId = true
    · rw [if_pos hc]
      exact hinit
    · rw [if_neg hc]
      intro q2 hq2
      rcases List.mem_append.1 hq2 with h1 | h2
      · exact hinit q2 h1
      · exact processRemovedStudy_queries sn.row q2 h2

lemma removalPass_queries (snaps : List StudySnapshot) (ids : List String) :
    ∀ q ∈ (removalPass snaps ids).1, q.isSoftDelete = false :=
  removalPass_aux ids snaps ([], 0) (by simp)

lemma includeStudy_ok_inv (study_id : Nat) (db : DB) (user_id : Nat) (rfw : Bool)
    (parse : PgnParser) (txOk : Bool) (ov : Bool) (db1 : DB)
    (h : includeStudy study_id db user_id rfw parse txOk ov = .ok db1) :
    ∃ s, db.studies.find? (fun t => t.id == study_id) = some s
      ∧ s.userId = user_id ∧ s.hidden = false ∧ s.included = false ∧ txOk = true
      ∧ db1 = applyQueries db ((parse s.pgn rfw true).map
            (fun m => DbQuery.upsertMove user_id study_id m)
          ++ [DbQuery.setIncluded study_id rfw]) := by
  unfold includeStudy at h
  split at h
  · exact absurd h (by simp)
  · rename_i s heq
    split at h
    · exact absurd h (by simp)
    · rename_i hus
      split at h
      · exact absurd h (by simp)
      · rename_i hhid
        split at h
        · exact absurd h (by simp)
        · rename_i hinc
          dsimp only at h
          split at h
          · rename_i htx
            simp only [Except.ok.injEq] at h
            exact ⟨s, heq, not_not.1 hus, by simpa using hhid, by simpa using hinc,
              htx, h.symm⟩
          · exact absurd h (by simp)

/-! ### Claim theorems -/

/-- C1 counterexample: the claim states that a content change is detected
exactly when `lastFetched < remoteLastModified` and no PendingUpdate has
`lastModifiedOnRemote ≥ remoteLastModified`.  On the concrete state below
(pending update fetched at time 10 whose recorded remote modification time is
3, remote now reporting modification time 5) the claim predicate detects a
change, but the code does not (it compares the update's `fetched` timestamp,
line 88 of the source), and the reconciliation step performs no fetch. -/
theorem C1_counterexample :
    changeDetected exStudyIncluded [exUpdateStale] exRemote.updatedAt = false
    ∧ specClaimChangeDetected exStudyIncluded [exUpdateStale] exRemote.updatedAt = true
    ∧ processExistingStudy 7 exDb ⟨exStudyIncluded, [exUpdateStale]⟩ exRemote
        exFetch exParse 20
      = .ok ⟨exDb, [], 0, 0⟩ := by
  refine ⟨by decide, by decide, ?_⟩
  rfl

/-- C1 (amended): a content change is detected exactly when
`lastFetched < remoteLastModified` and no PendingUpdate exists whose
`fetched` timestamp is at least the remote `lastModified`; in particular an
included document whose pending update satisfies this freshness test is not
re-fetched and its state is left untouched by the reconciliation step. -/
theorem C1_change_detection (s : LichessStudy) (updates : List StudyUpdate) (lm : Int)
    (hone : updates.length ≤ 1) :
    (changeDetected s updates lm
      = (decide (s.lastFetched < lm) && ! updates.any (fun u => decide (u.fetched ≥ lm))))
    ∧ ∀ (user_id : Nat) (db : DB) (ls : RemoteStudy) (fetch : String → String × Int)
        (parse : PgnParser) (now : Int),
        has_current_update_fetched updates ls.updatedAt = true →
        processExistingStudy user_id db ⟨s, updates⟩ ls fetch parse now
          = .ok ⟨db, restoreQueries s ++ renameQueries s ls, renameCount s ls, 0⟩ := by
  constructor
  · cases updates with
    | nil =>
      simp [changeDetected, has_current_update_fetched, has_newer_version_on_lichess]
    | cons u rest =>
      have hrest : rest = [] := by
        simp only [List.length_cons] at hone
        exact List.length_eq_zero.1 (by omega)
      subst hrest
      simp [changeDetected, has_current_update_fetched, has_newer_version_on_lichess,
        List.any_cons, ge_iff_le]
  · intro user_id db ls fetch parse now hcur
    have hdet : changeDetected s updates ls.updatedAt = false := by
      simp [changeDetected, hcur]
    unfold processExistingStudy
    dsimp only
    rw [if_neg (by simp [hdet])]

/-- C1 witness: the amended detection equation instantiated on the concrete
fixture state. -/
theorem C1_change_detection_witness :
    [exUpdateStale].length ≤ 1
    ∧ (changeDetected exStudyIncluded [exUpdateStale] 5
        = (decide (exStudyIncluded.lastFetched < 5)
            && ! [exUpdateStale].any (fun u => decide (u.fetched ≥ 5)))) :=
  ⟨by decide, (C1_change_detection exStudyIncluded [exUpdateStale] 5 (by decide)).1⟩

/-- C2: when a content change is detected for an existing document, an
included document gets exactly one pending update written (create-or-replace,
never duplicated) holding the computed diff counts and the new content, while
the move graph, the study rows and the user rows are untouched; an
unincluded, unhidden document has its stored content and timestamps
overwritten in place with no graph or update-table changes; a hidden,
unincluded document is left entirely unchanged. -/
theorem C2_content_change_dispatch (user_id : Nat) (db : DB) (snap : StudySnapshot)
    (ls : RemoteStudy) (fetch : String → String × Int) (parse : PgnParser) (now : Int)
    (hfind : db.studies.find? (fun t => t.id == snap.row.id) = some snap.row)
    (huser : snap.row.userId = user_id)
    (hdet : changeDetected snap.row snap.updates ls.updatedAt = true)
    (hone : (updatesFor db snap.row.id).length ≤ 1) :
    (snap.row.included = true →
      processExistingStudy user_id db snap ls fetch parse now
        = .ok ⟨{ db with updates := upsertStudyUpdate db.updates (pendingUpdateRecord snap.row db fetch parse now) },
               restoreQueries snap.row ++ renameQueries snap.row ls,
               renameCount snap.row ls, 1⟩
      ∧ updatesFor { db with updates := upsertStudyUpdate db.updates (pendingUpdateRecord snap.row db fetch parse now) } snap.row.id
          = [pendingUpdateRecord snap.row db fetch parse now])
    ∧ (snap.row.included = false → snap.row.hidden = false →
      processExistingStudy user_id db snap ls fetch parse now
        = .ok ⟨updateStudyRow db snap.row.id (fun t =>
              { t with lastModifiedOnLichess := (fetch snap.row.lichessId).2,
                       lastFetched := now, pgn := (fetch snap.row.lichessId).1 }),
             restoreQueries snap.row ++ renameQueries snap.row ls,
             renameCount snap.row ls, 1⟩)
    ∧ (snap.row.included = false → snap.row.hidden = true →
      processExistingStudy user_id db snap ls fetch parse now
        = .ok ⟨db, restoreQueries snap.row ++ renameQueries snap.row ls,
             renameCount snap.row ls, 0⟩) := by
  refine ⟨fun hincl => ⟨?_, ?_⟩, fun hincl hhid => ?_, fun hincl hhid => ?_⟩
  · unfold processExistingStudy
    dsimp only
    rw [if_pos (by simp [hdet]), if_pos hincl,
      fetchStudyUpdate_ok_eq user_id snap.row.id db snap.row fetch parse now hfind huser hincl]
  · exact updatesFor_upsert db.updates (pendingUpdateRecord snap.row db fetch parse now) hone
  · unfold processExistingStudy
    dsimp only
    rw [if_pos (by simp [hdet]), if_neg (by simp [hincl]), if_pos (by simp [hhid]),
      updateUnincludedStudy_ok_eq user_id snap.row.id db snap.row fetch now hfind huser hincl]
  · unfold processExistingStudy
    dsimp only
    rw [if_pos (by simp [hdet]), if_neg (by simp [hincl]), if_neg (by simp [hhid])]

/-- C2 witness: the included branch instantiated on a concrete state with a
detected change. -/
theorem C2_content_change_dispatch_witness :
    changeDetected exStudyIncluded [] exRemote.updatedAt = true
    ∧ processExistingStudy 7 exDbGraph ⟨exStudyIncluded, []⟩ exRemote exFetch exParse 20
        = .ok ⟨{ exDbGraph with updates := upsertStudyUpdate exDbGraph.updates (pendingUpdateRecord exStudyIncluded exDbGraph exFetch exParse 20) },
               restoreQueries exStudyIncluded ++ renameQueries exStudyIncluded exRemote,
               renameCount exStudyIncluded exRemote, 1⟩ :=
  ⟨by decide,
    ((C2_content_change_dispatch 7 exDbGraph ⟨exStudyIncluded, []⟩ exRemote exFetch exParse 20
      (by decide) (by decide) (by decide) (by decide)).1 rfl).1⟩

/-- C3: `unincludeStudy` fails when the study is not found or belongs to a
different user; otherwise its single transaction soft-deletes exactly the
moves with no owning collection besides this study (the orphans), clears the
study's `included` flag and severs every move-ownership edge of the study
(orphaned or not), and the call returns the orphan count; a failing
transaction aborts with an error, so none of the batch persists. -/
theorem C3_uninclude (study_id user_id : Nat) (db : DB) :
    (db.studies.find? (fun t => t.id == study_id) = none →
      ∀ tx, unincludeStudy study_id user_id db tx
        = .error ("Study #" ++ toString study_id ++ " not found"))
    ∧ (∀ s, db.studies.find? (fun t => t.id == study_id) = some s → s.userId ≠ user_id →
      ∀ tx, unincludeStudy study_id user_id db tx
        = .error "Study does not belong to this account (are you logged in?)")
    ∧ (∀ s, db.studies.find? (fun t => t.id == study_id) = some s → s.userId = user_id →
      unincludeStudy study_id user_id db true
        = .ok ({ db with
            studies := db.studies.map (fun t =>
              if t.id == study_id then { t with included := false } else t),
            moves := db.moves.map
              (unincView study_id (orphanMoves study_id (studyGraphMoves db study_id))) },
          (orphanMoves study_id (studyGraphMoves db study_id)).length))
    ∧ (∀ s, db.studies.find? (fun t => t.id == study_id) = some s → s.userId = user_id →
      unincludeStudy study_id user_id db false = .error "transaction failed") := by
  refine ⟨fun hnone tx => ?_, fun s hfind hne tx => ?_, fun s hfind huser => ?_,
    fun s hfind huser => ?_⟩
  · unfold unincludeStudy
    rw [hnone]
  · unfold unincludeStudy
    rw [hfind]
    dsimp only
    rw [if_pos hne]
  · exact unincludeStudy_ok_eq study_id user_id db s hfind huser
  · unfold unincludeStudy
    rw [hfind]
    dsimp only
    rw [if_neg (not_not_intro huser), if_neg (by simp)]

/-- C3 witness: un-including the concrete study with one exclusively-owned
and one shared move soft-deletes the exclusive one, severs both edges and
returns orphan count 1. -/
theorem C3_uninclude_witness :
    exDbGraph.studies.find? (fun t => t.id == 1) = some exStudyIncluded
    ∧ unincludeStudy 1 7 exDbGraph true
        = .ok ({ exDbGraph with
            studies := exDbGraph.studies.map (fun t =>
              if t.id == 1 then { t with included := false } else t),
            moves := exDbGraph.moves.map
              (unincView 1 (orphanMoves 1 (studyGraphMoves exDbGraph 1))) },
          (orphanMoves 1 (studyGraphMoves exDbGraph 1)).length) :=
  ⟨by decide, (C3_uninclude 1 7 exDbGraph).2.2.1 exStudyIncluded (by decide) rfl⟩

/-- C4: `includeStudy` fails when the target study belongs to a different
user, is hidden, or is already included; a failing transaction also aborts
with an error, so no flag change and no edge persists (every failure path of
the model returns no state, matching the single atomic batch of the source);
and after a successful include, a second include of the same study fails
with the already-included error, leaving the graph unchanged. -/
theorem C4_include_preconditions (study_id : Nat) (db : DB) (user_id : Nat)
    (rfw : Bool) (parse : PgnParser) (ov : Bool) :
    (∀ s, db.studies.find? (fun t => t.id == study_id) = some s → s.userId ≠ user_id →
      ∀ tx, includeStudy study_id db user_id rfw parse tx ov
        = .error "Adding Lichess study failed: user ID does not match")
    ∧ (∀ s, db.studies.find? (fun t => t.id == study_id) = some s → s.userId = user_id →
      s.hidden = true →
      ∀ tx, includeStudy study_id db user_id rfw parse tx ov
        = .error "Adding Lichess study failed: cannot import hidden study, unhide it first")
    ∧ (∀ s, db.studies.find? (fun t => t.id == study_id) = some s → s.userId = user_id →
      s.hidden = false → s.included = true →
      ∀ tx, includeStudy study_id db user_id rfw parse tx ov
        = .error "Adding Lichess study failed: study is already included")
    ∧ (∀ s, db.studies.find? (fun t => t.id == study_id) = some s → s.userId = user_id →
      s.hidden = false → s.included = false →
      includeStudy study_id db user_id rfw parse false ov
        = .error "Exception inserting moves into database")
    ∧ (∀ db1 tx, includeStudy study_id db user_id rfw parse tx ov = .ok db1 →
      ∀ (rfw2 tx2 ov2 : Bool),
        includeStudy study_id db1 user_id rfw2 parse tx2 ov2
          = .error "Adding Lichess study failed: study is already included") := by
  refine ⟨fun s hfind hne tx => ?_, fun s hfind hus hhid tx => ?_,
    fun s hfind hus hhid hinc tx => ?_, fun s hfind hus hhid hinc => ?_,
    fun db1 tx h rfw2 tx2 ov2 => ?_⟩
  · unfold includeStudy
    rw [hfind]
    dsimp only
    rw [if_pos hne]
  · unfold includeStudy
    rw [hfind]
    dsimp only
    rw [if_neg (not_not_intro hus), if_pos hhid]
  · unfold includeStudy
    rw [hfind]
    dsimp only
    rw [if_neg (not_not_intro hus), if_neg (by simp [hhid]), if_pos hinc]
  · unfold includeStudy
    rw [hfind]
    dsimp only
    rw [if_neg (not_not_intro hus), if_neg (by simp [hhid]), if_neg (by simp [hinc]),
      if_neg (by simp)]
  · obtain ⟨s, hfind, hus, hhid, hinc, htx, hdb1⟩ := includeStudy_ok_inv _ _ _ _ _ _ _ _ h
    have hstud : db1.studies
        = db.studies.map (fun t =>
            if t.id == study_id then { t with included := true, repForWhite := rfw }
            else t) := by
      rw [hdb1, applyQueries_append]
      show ((applyQueries db ((parse s.pgn rfw true).map
        (fun m => DbQuery.upsertMove user_id study_id m))).studies.map _) = _
      rw [applyQueries_upserts_studies]
    have hfind2 : db1.studies.find? (fun t => t.id == study_id)
        = some { s with included := true, repForWhite := rfw } := by
      rw [hstud]
      exact find?_map_update db.studies study_id
        (fun t => { t with included := true, repForWhite := rfw }) (fun t => rfl) s hfind
    unfold includeStudy
    rw [hfind2]
    dsimp only
    rw [if_neg (not_not_intro hus), if_neg (by simp [hhid]), if_pos rfl]

/-- C4 witness: on the concrete database, a first include succeeds and the
second include fails with the already-included error. -/
theorem C4_include_preconditions_witness :
    includeStudy 2 exDbInclude 7 true exParse true false
      = .ok (applyQueries exDbInclude ((exParse exStudyUnincluded.pgn true true).map
          (fun m => DbQuery.upsertMove 7 2 m) ++ [DbQuery.setIncluded 2 true]))
    ∧ (∀ (rfw2 tx2 ov2 : Bool),
        includeStudy 2 (applyQueries exDbInclude ((exParse exStudyUnincluded.pgn true true).map
            (fun m => DbQuery.upsertMove 7 2 m) ++ [DbQuery.setIncluded 2 true]))
          7 rfw2 exParse tx2 ov2
          = .error "Adding Lichess study failed: study is already included") :=
  ⟨by rfl,
    (C4_include_preconditions 2 exDbInclude 7 true exParse false).2.2.2.2 _ true (by rfl)⟩

/-- C5: the invariant that a move with at least one owning collection is not
soft-deleted is preserved by every operation: the upsert of an existing key
reattaches the study as an owner and clears the soft-delete flag in the same
mutation; `includeStudy`, `unincludeStudy`, `deleteStudy` and
`fetchAllStudyChanges` all preserve the invariant (un-inclusion soft-deletes
only moves whose owning-collection set becomes empty, given the composite-key
uniqueness the storage enforces); `fetchStudyUpdate` and
`updateUnincludedStudy` do not touch the move graph at all. -/
theorem C5_owner_invariant (db : DB) (h : movesInvariant db.moves) :
    (∀ (uid sid : Nat) (m : ParsedMove),
      db.moves.any (fun mv => parsedKeyMatches uid m mv) = true →
      ∀ mv2 ∈ (applyQuery db (DbQuery.upsertMove uid sid m)).moves,
        parsedKeyMatches uid m mv2 = true → mv2.deleted = false ∧ sid ∈ mv2.studies)
    ∧ (∀ (study_id user_id : Nat) (rfw : Bool) (parse : PgnParser) (tx ov : Bool)
        (db1 : DB),
      includeStudy study_id db user_id rfw parse tx ov = .ok db1 →
      movesInvariant db1.moves)
    ∧ (movesKeyInjective db.moves →
      ∀ (study_id user_id : Nat) (tx : Bool) (db1 : DB) (n : Nat),
        unincludeStudy study_id user_id db tx = .ok (db1, n) → movesInvariant db1.moves)
    ∧ (movesKeyInjective db.moves →
      ∀ (user_id study_id : Nat) (tx : Bool) (db1 : DB),
        deleteStudy user_id study_id db tx = .ok db1 → movesInvariant db1.moves)
    ∧ (∀ (user_id : Nat) (ls : List RemoteStudy) (fetch : String → String × Int)
        (parse : PgnParser) (gc mp : String → String) (now : Int) (tx : Bool)
        (db1 : DB) (c : SyncCounts),
        fetchAllStudyChanges user_id db ls fetch parse gc mp now tx = .ok (db1, c) →
        movesInvariant db1.moves)
    ∧ (∀ (user_id study_id : Nat) (fetch : String → String × Int) (parse : PgnParser)
        (now : Int) (db1 : DB) (st : UpdateStats),
        fetchStudyUpdate user_id study_id db fetch parse now = .ok (db1, st) →
        db1.moves = db.moves)
    ∧ (∀ (user_id study_id : Nat) (fetch : String → String × Int) (now : Int) (db1 : DB),
        updateUnincludedStudy user_id study_id db fetch now = .ok db1 →
        db1.moves = db.moves) := by
  refine ⟨?_, ?_, ?_, ?_, ?_, ?_, ?_⟩
  · intro uid sid m hany mv2 hmem hmatch
    rw [show applyQuery db (DbQuery.upsertMove uid sid m)
        = { db with moves := db.moves.map (fun mv =>
            if parsedKeyMatches uid m mv then
              { mv with studies := mv.studies.insert sid, deleted := false }
            else mv) } from by simp only [applyQuery]; rw [if_pos hany]] at hmem
    rw [List.mem_map] at hmem
    obtain ⟨mv, hmv, rfl⟩ := hmem
    by_cases hk : parsedKeyMatches uid m mv = true
    · rw [if_pos hk]
      exact ⟨rfl, List.mem_insert_iff.2 (Or.inl rfl)⟩
    · rw [if_neg hk] at hmatch
      exact absurd hmatch hk
  · intro study_id user_id rfw parse tx ov db1 hok
    obtain ⟨s, -, -, -, -, -, hdb1⟩ := includeStudy_ok_inv _ _ _ _ _ _ _ _ hok
    rw [hdb1]
    apply movesInvariant_applyQueries _ _ h
    intro q hq
    rcases List.mem_append.1 hq with h1 | h2
    · rw [List.mem_map] at h1
      obtain ⟨m, -, rfl⟩ := h1
      rfl
    · rw [List.mem_singleton] at h2
      subst h2
      rfl
  · intro hinj study_id user_id tx db1 n hok
    obtain ⟨-, hdb1, -⟩ := unincludeStudy_ok_inv _ _ _ _ _ _ hok
    rw [hdb1]
    exact movesInvariant_unincView db study_id hinj h
  · intro hinj user_id study_id tx db1 hok
    unfold deleteStudy at hok
    split at hok
    · exact absurd hok (by simp)
    · split at hok
      · exact absurd hok (by simp)
      · split at hok
        · split at hok
          · exact absurd hok (by simp)
          · rename_i dbU n heq
            simp only [Except.ok.injEq] at hok
            subst hok
            obtain ⟨-, hdbU, -⟩ := unincludeStudy_ok_inv _ _ _ _ _ _ heq
            have hU : movesInvariant dbU.moves := by
              rw [hdbU]
              exact movesInvariant_unincView db study_id hinj h
            exact movesInvariant_applyQuery dbU _ hU rfl
        · simp only [Except.ok.injEq] at hok
          subst hok
          exact movesInvariant_applyQuery db _ h rfl
  · intro user_id ls fetch parse gc mp now tx db1 c hok
    unfold fetchAllStudyChanges at hok
    dsimp only at hok
    split at hok
    · exact absurd hok (by simp)
    · rename_i acc heq
      split at hok
      · split at hok
        · simp only [Except.ok.injEq, Prod.mk.injEq] at hok
          obtain ⟨hdb1, -⟩ := hok
          subst hdb1
          obtain ⟨hm, -, hq⟩ := syncRemoteStudies_ok_parts _ _ _ _ _ _ _ _ _ _ heq
          refine movesInvariant_applyQueries _ acc.db ?_ ?_
          · rw [hm]
            exact h
          · intro q hq2
            rcases List.mem_append.1 hq2 with h1 | h2
            · rcases hq q h1 with hin | hns
              · simp at hin
              · exact hns
            · exact removalPass_queries _ _ q h2
        · exact absurd hok (by simp)
      · exact absurd hok (by simp)
  · intro user_id study_id fetch parse now db1 st hok
    exact (fetchStudyUpdate_ok_parts _ _ _ _ _ _ _ _ hok).1
  · intro user_id study_id fetch now db1 hok
    exact (updateUnincludedStudy_ok_parts _ _ _ _ _ _ hok).1

/-- C5 witness: invariant and key-uniqueness hold on the concrete graph
database, and the invariant still holds after un-including study 1 there. -/
theorem C5_owner_invariant_witness :
    movesInvariant exDbGraph.moves
    ∧ movesKeyInjective exDbGraph.moves
    ∧ movesInvariant ({ exDbGraph with
        studies := exDbGraph.studies.map (fun t =>
          if t.id == 1 then { t with included := false } else t),
        moves := exDbGraph.moves.map
          (unincView 1 (orphanMoves 1 (studyGraphMoves exDbGraph 1))) } : DB).moves :=
  ⟨by decide, by decide,
    (C5_owner_invariant exDbGraph (by decide)).2.2.1 (by decide) 1 7 true _ _ (by rfl)⟩

/-- C6: for a local document absent from the remote set: an included document
gets `removedOnRemote` set and is counted only when the flag was not already
set (no redundant query, no redundant count); an unincluded document is
hard-deleted and counted; the two queries have exactly the stated row-level
effects. -/
theorem C6_removed_locally (s : LichessStudy) (db : DB) :
    (s.included = true → s.removedOnLichess = false →
      processRemovedStudy s = ([DbQuery.setRemovedOnLichess s.id], 1))
    ∧ (s.included = true → s.removedOnLichess = true →
      processRemovedStudy s = ([], 0))
    ∧ (s.included = false →
      processRemovedStudy s = ([DbQuery.deleteStudyRow s.id], 1))
    ∧ ((applyQuery db (DbQuery.setRemovedOnLichess s.id)).studies
        = db.studies.map (fun t =>
            if t.id == s.id then { t with removedOnLichess := true } else t))
    ∧ ((applyQuery db (DbQuery.deleteStudyRow s.id)).studies
        = db.studies.filter (fun t => t.id != s.id)) := by
  refine ⟨fun hinc hrem => ?_, fun hinc hrem => ?_, fun hinc => ?_, rfl, rfl⟩
  · unfold processRemovedStudy
    rw [if_pos hinc, if_pos (by simp [hrem])]
  · unfold processRemovedStudy
    rw [if_pos hinc, if_neg (by simp [hrem])]
  · unfold processRemovedStudy
    rw [if_neg (by simp [hinc])]

/-- C6 witness: the included, not-yet-flagged case on the concrete study. -/
theorem C6_removed_locally_witness :
    exStudyIncluded.included = true ∧ exStudyIncluded.removedOnLichess = false
    ∧ processRemovedStudy exStudyIncluded = ([DbQuery.setRemovedOnLichess 1], 1) :=
  ⟨rfl, rfl, (C6_removed_locally exStudyIncluded exDb).1 rfl rfl⟩

/-- C7: `deleteStudy` fails on user mismatch; for an included document it
first runs `unincludeStudy` (its own committed batch, returning the orphan
count) and then hard-deletes the row in a separate second step, after which
a lookup of the document yields nothing. -/
theorem C7_delete_study (user_id study_id : Nat) (db : DB) (s : LichessStudy)
    (hfind : db.studies.find? (fun t => t.id == study_id) = some s) :
    (s.userId ≠ user_id → ∀ tx, deleteStudy user_id study_id db tx
      = .error "Study does not belong to this user (are you logged in?)")
    ∧ (s.userId = user_id → s.included = true →
      ∃ db1, unincludeStudy study_id user_id db true
          = .ok (db1, (orphanMoves study_id (studyGraphMoves db study_id)).length)
        ∧ deleteStudy user_id study_id db true
            = .ok (applyQuery db1 (DbQuery.deleteStudyRow study_id))
        ∧ (applyQuery db1 (DbQuery.deleteStudyRow study_id)).studies.find?
            (fun t => t.id == study_id) = none) := by
  constructor
  · intro hne tx
    unfold deleteStudy
    rw [hfind]
    dsimp only
    rw [if_pos hne]
  · intro huser hincl
    refine ⟨_, unincludeStudy_ok_eq study_id user_id db s hfind huser, ?_, ?_⟩
    · unfold deleteStudy
      rw [hfind]
      dsimp only
      rw [if_neg (not_not_intro huser), if_pos hincl,
        unincludeStudy_ok_eq study_id user_id db s hfind huser]
    · apply List.find?_eq_none.2
      intro x hx
      have hne := (List.mem_filter.1 hx).2
      simp only [bne_iff_ne, ne_eq] at hne
      simp only [beq_iff_eq]
      exact hne

/-- C7 witness: deleting the concrete included study unincludes first
(orphan count 1), hard-deletes the row, and the subsequent lookup misses. -/
theorem C7_delete_study_witness :
    exDbGraph.studies.find? (fun t => t.id == 1) = some exStudyIncluded
    ∧ ∃ db1, unincludeStudy 1 7 exDbGraph true
        = .ok (db1, (orphanMoves 1 (studyGraphMoves exDbGraph 1)).length)
      ∧ deleteStudy 7 1 exDbGraph true = .ok (applyQuery db1 (DbQuery.deleteStudyRow 1))
      ∧ (applyQuery db1 (DbQuery.deleteStudyRow 1)).studies.find?
          (fun t => t.id == 1) = none :=
  ⟨by decide, (C7_delete_study 7 1 exDbGraph exStudyIncluded (by decide)).2 rfl rfl⟩

/-- C8: with a failing transaction the reconciliation pass returns an error
(no counts are reported and the per-user last-checked timestamp is not
recorded, since the model yields no state on the error path); whenever the
pass succeeds the transaction was the successful one and the returned state
records the timestamp for exactly the requesting user, once. -/
theorem C8_batch_failure (user_id : Nat) (db : DB) (ls : List RemoteStudy)
    (fetch : String → String × Int) (parse : PgnParser) (gc mp : String → String)
    (now : Int) :
    (∀ r, fetchAllStudyChanges user_id db ls fetch parse gc mp now false ≠ .ok r)
    ∧ (∀ (tx : Bool) (db1 : DB) (c : SyncCounts),
        fetchAllStudyChanges user_id db ls fetch parse gc mp now tx = .ok (db1, c) →
        tx = true
        ∧ db1.users = db.users.map (fun u =>
            if u.id == user_id then { u with lastRepertoireUpdateCheck := some now }
            else u)) := by
  constructor
  · intro r h
    unfold fetchAllStudyChanges at h
    dsimp only at h
    split at h
    · exact absurd h (by simp)
    · split at h
      · rename_i hfalse
        exact absurd hfalse (by simp)
      · exact absurd h (by simp)
  · intro tx db1 c h
    unfold fetchAllStudyChanges at h
    dsimp only at h
    split at h
    · exact absurd h (by simp)
    · rename_i acc heq
      split at h
      · rename_i htx
        split at h
        · simp only [Except.ok.injEq, Prod.mk.injEq] at h
          obtain ⟨hdb1, -⟩ := h
          subst hdb1
          refine ⟨htx, ?_⟩
          show ((applyQueries acc.db _).users.map _) = _
          rw [applyQueries_users]
          have hu := (syncRemoteStudies_ok_parts _ _ _ _ _ _ _ _ _ _ heq).2.1
          rw [hu]
        · exact absurd h (by simp)
      · exact absurd h (by simp)

/-- C8 witness: on the concrete state the failing-transaction pass is not a
success, and the successful pass records the last-checked timestamp for the
user. -/
theorem C8_batch_failure_witness :
    fetchAllStudyChanges 7 exDb [] exFetch exParseNil exGuess exPrev 20 false
      ≠ .ok (exDb, ⟨0, 0, 0, 1⟩)
    ∧ (true = true
      ∧ (setLastCheck (applyQueries exDb [DbQuery.setRemovedOnLichess 1]) 7 20).users
          = exDb.users.map (fun u =>
              if u.id == 7 then { u with lastRepertoireUpdateCheck := some (20 : Int) }
              else u)) :=
  ⟨(C8_batch_failure 7 exDb [] exFetch exParseNil exGuess exPrev 20).1 _,
   (C8_batch_failure 7 exDb [] exFetch exParseNil exGuess exPrev 20).2 true
     (setLastCheck (applyQueries exDb [DbQuery.setRemovedOnLichess 1]) 7 20)
     ⟨0, 0, 0, 1⟩ (by rfl)⟩

/-- C9: `includeStudy` ignores its `onlyVariant` parameter: the source
overwrites it with `true` before parsing, so the whole result, and with it
the set of moves inserted into the repertoire, is the same for every value
of the parameter. -/
theorem C9_onlyVariant_ignored (study_id : Nat) (db : DB) (user_id : Nat)
    (rfw : Bool) (parse : PgnParser) (tx : Bool) (ov1 ov2 : Bool) :
    includeStudy study_id db user_id rfw parse tx ov1
      = includeStudy study_id db user_id rfw parse tx ov2 := rfl

/-- C10: `deleteStudy` does not verify existence: when the lookup misses, the
subsequent owner check dereferences the null result, so the call fails with
the generic null-access TypeError rather than a descriptive not-found error
(which `unincludeStudy`, by contrast, does produce), and no deletion or
un-inclusion is performed since the call aborts before either step. -/
theorem C10_delete_missing_study (user_id study_id : Nat) (db : DB) (tx : Bool)
    (h : db.studies.find? (fun t => t.id == study_id) = none) :
    deleteStudy user_id study_id db tx = .error nullDereferenceError
    ∧ unincludeStudy study_id user_id db tx
        = .error ("Study #" ++ toString study_id ++ " not found") := by
  constructor
  · unfold deleteStudy
    rw [h]
  · unfold unincludeStudy
    rw [h]

/-- C10 witness: deleting a non-existent study id on the concrete database
fails with the null-access error. -/
theorem C10_delete_missing_study_witness :
    exDb.studies.find? (fun t => t.id == 99) = none
    ∧ deleteStudy 7 99 exDb true = .error nullDereferenceError :=
  ⟨by decide, (C10_delete_missing_study 7 99 exDb true (by decide)).1⟩
